import Mathlib

/-!
Shallow embedding of the virt-kernel sources (src/src of the repository):
the buddy frame allocator (`pm.rs`), the page-table manager and scratch
window (`vm.rs`), the scheduler's region lookup, brk and sleep/wakeup
(`sched.rs`), the file pool (`fs.rs`) and the 9P client's walk (`p9.rs`).
Machine integers are modelled as `Nat` with explicit truncation where the
source can wrap; fallible code returns `Option`/`Except`.
-/

set_option maxHeartbeats 1000000

set_option maxRecDepth 16384

namespace Pm

/-- Source `pm.rs` constant `MB`. -/
def MB : Nat := 1024 * 1024

/-- Source `pm.rs` constant `GB`. -/
def GB : Nat := 1024 * 1024 * 1024

/-- u64 modulus: the kernel's `usize` is 64 bits wide. -/
def U64 : Nat := 2 ^ 64

/-- Source `pm.rs` `align_b(n, t) = n & !t.wrapping_sub(1)` for a power-of-two `t`:
for `t` a power of two dividing `2^64`, `!(t-1)` selects the bits above
`log2 t`, so the result is `n - n % t`. We model the 64-bit bitwise and
directly. -/
def alignB (n t : Nat) : Nat := n &&& (U64 - t)

/-- Source `pm.rs` `align_f(n, t) = align_b(n.wrapping_sub(1), t).wrapping_add(t)`,
with 64-bit wrapping arithmetic made explicit. -/
def alignF (n t : Nat) : Nat := (alignB ((n + (U64 - 1)) % U64) t + t) % U64

/-- Source `pm.rs` `enum Flags { None, Used, Cow, Mid }`. -/
inductive PFlags
  | fNone
  | fUsed
  | fCow
  | fMid
  deriving DecidableEq, Repr

/-- Source `pm.rs` `struct Page` metadata (the intrusive `next` pointer is
represented by membership in the free lists below). -/
structure PageM where
  idx : Nat
  ord : Nat
  refCnt : Nat
  flags : PFlags
  deriving DecidableEq, Repr

/-- Source `pm.rs` `struct Allocator`: the nine order-indexed free lists hold page
indices (head of the intrusive list first), `pages` is the `PAGES` metadata
array, `offt`/`size` delimit the managed window. -/
structure AllocatorM where
  freeLists : Nat → List Nat
  pages : Nat → PageM
  offt : Nat
  size : Nat

/-- Source `Allocator::ORDER`. -/
def ORDER : Nat := 8

/-- Source `Allocator::get_buddy(addr, ord) = addr ^ (4096 << (ORDER - ord))`. -/
def getBuddy (addr ord : Nat) : Nat := addr ^^^ (4096 <<< (ORDER - ord))

/-- Source `Allocator::get_ord(n) = 8 - (align_f(n,4096).next_power_of_two().ilog2() - 12)`. -/
def getOrd (n : Nat) : Nat :=
  ORDER - (Nat.log2 (Nat.nextPowerOfTwo (alignF n 4096)) - 12)

/-- Function update on the page metadata array. -/
def setPage (ps : Nat → PageM) (i : Nat) (p : PageM) : Nat → PageM :=
  fun j => if j = i then p else ps j

/-- Function update on the free-list array. -/
def setFL (fl : Nat → List Nat) (o : Nat) (l : List Nat) : Nat → List Nat :=
  fun j => if j = o then l else fl j

/-- Source `FL::add`: push a page index on the front of the intrusive list. -/
def flAdd (a : AllocatorM) (o i : Nat) : AllocatorM :=
  { a with freeLists := setFL a.freeLists o (i :: a.freeLists o) }

/-- Source `FL::remove`: unlink the node with the given `idx` (first occurrence). -/
def flRemove (a : AllocatorM) (o i : Nat) : AllocatorM :=
  { a with freeLists := setFL a.freeLists o ((a.freeLists o).eraseP (fun j => j = i)) }

/-- Source `FL::rm_first`: pop the head of the list, if any. -/
def flRmFirst (a : AllocatorM) (o : Nat) : Option (Nat × AllocatorM) :=
  match a.freeLists o with
  | [] => none
  | h :: t => some (h, { a with freeLists := setFL a.freeLists o t })

/-- Source `Page::split`: halve a free block of order `order`; both halves move to
the order `order+1` free list (second half pushed first, so the original
head ends up at the front, as in the source). -/
def pageSplit (a : AllocatorM) (pIdx order : Nat) : AllocatorM :=
  let len := (4096 <<< (ORDER - order)) / 2
  let i2 := pIdx + len / 4096
  let a := flRemove a order pIdx
  let a := { a with pages := setPage a.pages pIdx { a.pages pIdx with ord := order + 1 } }
  let a := { a with pages := setPage a.pages i2 { a.pages i2 with ord := order + 1 } }
  let a := flAdd a (order + 1) i2
  flAdd a (order + 1) pIdx

/-- Source `Allocator::split_to`: repeatedly split the block at the head until the
target order is reached (the loop variable re-reads the head of the next
free list each round, exactly as the source does). -/
def splitTo (a : AllocatorM) (pIdx curOrd tOrd : Nat) : AllocatorM :=
  if tOrd > curOrd then
    let a := pageSplit a pIdx curOrd
    let pIdx := ((a.freeLists (curOrd + 1)).headD 0)
    splitTo a pIdx (curOrd + 1) tOrd
  else a
  termination_by tOrd - curOrd
  decreasing_by omega

/-- The first-fit scan of `Allocator::_alloc`: walk orders `ord-1` down to 0
looking for a non-empty free list and split it down to `ord`. -/
def allocScan (a : AllocatorM) (ord : Nat) : Nat → AllocatorM
  | i =>
    match (a.freeLists i).head? with
    | some p => splitTo a p i ord
    | none => if i = 0 then a else allocScan a ord (i - 1)

/-- Source `Allocator::_alloc`: returns the byte offset of the block inside the
window (the source's `*mut u8`), or `None`. Sizes above 1 MiB, zero sizes
and an uninitialised allocator fail up front. -/
def allocInner (a : AllocatorM) (n : Nat) : Option Nat × AllocatorM :=
  if n > MB ∨ n = 0 ∨ a.size = 0 then (none, a)
  else
    let ord := getOrd n
    match flRmFirst a ord with
    | some (p, a) =>
        let a := { a with pages := setPage a.pages p { a.pages p with refCnt := 1 } }
        (some (p * 4096), a)
    | none =>
        if ord = 0 then (none, a)
        else
          let a := allocScan a ord (ord - 1)
          match flRmFirst a ord with
          | some (p, a) =>
              let a := { a with pages := setPage a.pages p { a.pages p with refCnt := 1 } }
              (some (p * 4096), a)
          | none => (none, a)

/-- Source `Page::len() = 4096 << (8 - ord)`. -/
def pageLen (p : PageM) : Nat := 4096 <<< (8 - p.ord)

/-- Source `Page::mark_mids`: stamp the trailing frames of the block `Mid`, storing
the offset from the head in `ref_cnt`. -/
def markMids (ps : Nat → PageM) (hIdx n : Nat) : Nat → PageM :=
  fun j =>
    if hIdx < j ∧ j < hIdx + n then { ps j with refCnt := j - hIdx, flags := PFlags.fMid }
    else ps j

/-- Source `Allocator::lookup`: index the page array by byte address. -/
def lookupM (a : AllocatorM) (addr : Nat) : Option PageM :=
  if addr < a.offt then none
  else if addr - a.offt ≥ a.size then none
  else some (a.pages ((addr - a.offt) / 4096))

/-- Source `Allocator::alloc`: `_alloc`, then stamp the head `Used` and the
trailing frames `Mid`. -/
def allocM (a : AllocatorM) (n : Nat) : Option Nat × AllocatorM :=
  match allocInner a n with
  | (some off, a) =>
      let hIdx := off / 4096
      let blocks := pageLen (a.pages hIdx) / 4096
      let a := { a with pages := markMids a.pages hIdx blocks }
      let a := { a with pages := setPage a.pages hIdx { a.pages hIdx with flags := PFlags.fUsed } }
      (some (off + a.offt), a)
  | (none, a) => (none, a)

/-- Source `pm::alloc` (the public wrapper): `Ok(addr)` or `Err(())`. -/
def pmAlloc (a : AllocatorM) (n : Nat) : Except Unit Nat × AllocatorM :=
  match allocM a n with
  | (some p, a) => (Except.ok p, a)
  | (none, a) => (Except.error (), a)

end Pm

namespace Sched

/-- Source `sched.rs` `enum RegionType`. -/
inductive RegionType
  | program
  | stack
  | brk
  | mmap
  deriving DecidableEq, Repr

/-- Source `sched.rs` `struct Region`. -/
structure RegionM where
  ty : RegionType
  vaddr : Nat
  cap : Nat
  len : Nat
  flags : Nat
  granule : Nat
  deriving DecidableEq, Repr

/-- Source `REGION_MAX_SZ = GB`. -/
def REGION_MAX_SZ : Nat := Pm.GB

/-- Source `Region::blksize() = 4096 << granule`. -/
def blksize (r : RegionM) : Nat := 4096 <<< r.granule

/-- Source `Region::has(vaddr) = vaddr >= self.vaddr && vaddr < self.vaddr + self.len`. -/
def regionHas (r : RegionM) (v : Nat) : Bool :=
  v ≥ r.vaddr && v < r.vaddr + r.len

/-- Source `Region::end() = len + vaddr`. -/
def regionEnd (r : RegionM) : Nat := r.len + r.vaddr

/-- Source `Region::alloc(sz)`: grow the region by `sz` bytes and return the old
end, unless the grown length would pass `vaddr + REGION_MAX_SZ`. (The
source first asserts `sz % blksize == 0`; the claims only exercise
granule-0 regions with page-multiple sizes, where the assert holds.) -/
def regionAlloc (r : RegionM) (sz : Nat) : Option (Nat × RegionM) :=
  if r.len + sz > r.vaddr + REGION_MAX_SZ then none
  else some (r.vaddr + r.len, { r with len := r.len + sz })

/-- The slice of `sched.rs` `struct Task` that the data-abort path reads:
the brk and mmap arenas and the program-segment list. -/
structure TaskRegions where
  brk : RegionM
  mmap : RegionM
  program : List RegionM
  deriving DecidableEq, Repr

/-- Source `sched.rs` `find_region`, exactly as written: note that the branch
guarded by `task.mmap.has(v)` returns `task.brk`. -/
def findRegion (t : TaskRegions) (v : Nat) : Option RegionM :=
  if regionHas t.brk v then some t.brk
  else if regionHas t.mmap v then some t.brk
  else t.program.find? (fun r => regionHas r v)

/-- Source `vm.rs` permission constant `PR_PW_UR_UW1 = (1 << 54) | (0b01 << 6)`:
privileged read/write plus unprivileged read/write. -/
def PR_PW_UR_UW1 : Nat := (1 <<< 54) ||| (0b01 <<< 6)

/-- Outcome of the `brk` syscall handler: the value returned to the task,
the updated brk region, the pages mapped (virtual address and PTE
permission bits, granule 1) and the byte range zero-filled. -/
structure BrkRes where
  ret : Nat
  region : RegionM
  mapped : List (Nat × Nat)
  zeroed : Option (Nat × Nat)
  deriving DecidableEq, Repr

/-- Source `sched.rs` `brk()`, as a function of the task's brk region and the
requested address (`tf.regs[0]`). `none` models the panic of the
`task.brk.alloc(incr).unwrap()` call. Each mapped page receives a freshly
allocated frame; the claims do not depend on which frame, so the physical
addresses are omitted from the result. -/
def brkModel (r : RegionM) (req : Nat) : Option BrkRes :=
  let pos := regionEnd r
  let newPos := Pm.alignF req 4096
  if newPos = 0 then some ⟨pos, r, [], none⟩
  else if newPos < pos then some ⟨pos, r, [], none⟩
  else if newPos = pos then some ⟨pos, r, [], none⟩
  else
    let incr := newPos - pos
    if incr > 10 * Pm.MB then some ⟨pos, r, [], none⟩
    else
      match regionAlloc r incr with
      | none => none
      | some (start, r) =>
          let pages := incr / 4096
          some ⟨newPos, r,
            (List.range pages).map (fun i => (start + i * 4096, PR_PW_UR_UW1)),
            some (pos, incr)⟩

/-- Task states (subset relevant to sleep/wakeup). -/
inductive TState
  | running
  | sleeping
  | ready
  deriving DecidableEq, Repr

/-- Joint state of the sleeping task and the two locks during `sleep(chan,
lock)`: `pc` counts the statements of `sched.rs::sleep` already executed,
`extHeld` is the caller-supplied external lock, `taskHeld` the task's own
slot lock. -/
structure SleepSt where
  pc : Nat
  extHeld : Bool
  taskHeld : Bool
  st : TState
  chan : Option Nat
  deriving DecidableEq, Repr

/-- One statement of `sched.rs::sleep` in source order:
pc 0: `task.lock.acquire()`;
pc 1: `lock.release()`;
pc 2: `task.state = State::Sleeping`;
pc 3: `task.chan = Some(chan)`;
pc 4: `sched()` switches to the scheduler;
pc 5: the scheduler's guard for this slot drops, releasing the task lock
(the switched-out task keeps sleeping). -/
def sleepStep (c : Nat) (s : SleepSt) : SleepSt :=
  if s.pc = 0 then { s with pc := 1, taskHeld := true }
  else if s.pc = 1 then { s with pc := 2, extHeld := false }
  else if s.pc = 2 then { s with pc := 3, st := TState.sleeping }
  else if s.pc = 3 then { s with pc := 4, chan := some c }
  else if s.pc = 4 then { s with pc := 5 }
  else if s.pc = 5 then { s with pc := 6, taskHeld := false }
  else s

/-- State at `sleep` entry: the caller holds the external lock, the task is
running with no wait channel. -/
def sleepInit : SleepSt :=
  { pc := 0, extHeld := true, taskHeld := false, st := TState.running, chan := none }

/-- The sleeper's trace: the state after `k` statements of `sleep(c, lock)`. -/
def sleepTrace (c : Nat) : Nat → SleepSt
  | 0 => sleepInit
  | k + 1 => sleepStep c (sleepTrace c k)

/-- The sleeper's state once `sleep` has entered the scheduler and the
scheduler's guard has released the slot lock: switched out, Sleeping, with
the channel published and both locks free. -/
def sleepFinal (c : Nat) : SleepSt :=
  ⟨6, false, false, TState.sleeping, some c⟩

/-- The body of `sched.rs::wakeup(chan)` for one task slot, executed under
that slot's lock: a Sleeping task whose channel matches becomes Ready. -/
def wakeupStep (chan : Nat) (s : SleepSt) : SleepSt :=
  if s.st = TState.sleeping then
    match s.chan with
    | some c => if c = chan then { s with st := TState.ready } else s
    | none => s
  else s

end Sched

namespace Fs

/-- Source `fs.rs` `enum FileKind` (the payloads — the 9P file and the console
singleton — do not affect the refcount protocol and are dropped). -/
inductive FKind
  | kNone
  | kUsed
  | kP9
  | kCons
  deriving DecidableEq, Repr

/-- One slot of the global file pool: its kind tag and atomic `rc`. -/
structure FileSt where
  kind : FKind
  rc : Nat
  deriving DecidableEq, Repr

/-- Source `File::zeroed()`. -/
def fileZeroed : FileSt := { kind := FKind.kNone, rc := 0 }

/-- Source `fs.rs` `File::close`, as a function of whether the 9P clunk succeeds:
`rc == 0` is a no-op; a compare-exchange of `rc` from 1 to 0 takes the
destructor path (9P: on a successful clunk the kind is reset to `None`, on
failure the count is restored; console: the match arm is empty, so the
kind is left as `Cons`); otherwise `rc` is decremented. The source panics
on kinds `None`/`Used` inside the destructor path; those states are never
offered a `close` by the step relation below. -/
def closeM (clunkOk : Bool) (s : FileSt) : FileSt :=
  if s.rc = 0 then s
  else if s.rc = 1 then
    match s.kind with
    | FKind.kP9 =>
        if clunkOk then { kind := FKind.kNone, rc := 0 }
        else { s with rc := 1 }
    | FKind.kCons => { s with rc := 0 }
    | _ => s
  else { s with rc := s.rc - 1 }

/-- Source `File::dup`: unconditional refcount increment. -/
def dupM (s : FileSt) : FileSt := { s with rc := s.rc + 1 }

/-- One complete file-table operation on a pool slot, as performed by
`fs.rs`: a successful `open` (via `alloc_file`, which requires the slot to
be `None`, then stamps kind `P9` and `rc = 1`), a failed `open` (alloc
then `free_file`, restoring `None`), `open_cons` (kind `Cons`, `rc = 1`),
`dup` (invoked through a live fd, so `rc ≥ 1`), and `close` on a 9P or
console slot. -/
inductive FStep : FileSt → FileSt → Prop
  | openOk (s : FileSt) (h : s.kind = FKind.kNone) :
      FStep s { kind := FKind.kP9, rc := 1 }
  | openFail (s : FileSt) (h : s.kind = FKind.kNone) :
      FStep s { kind := FKind.kNone, rc := s.rc }
  | openCons (s : FileSt) (h : s.kind = FKind.kNone) :
      FStep s { kind := FKind.kCons, rc := 1 }
  | dup (s : FileSt) (h : s.rc ≥ 1) : FStep s (dupM s)
  | close (s : FileSt) (clunkOk : Bool)
      (h : s.kind = FKind.kP9 ∨ s.kind = FKind.kCons) :
      FStep s (closeM clunkOk s)

/-- A pool slot reachable from the zeroed pool by file-table operations. -/
def FReach (s : FileSt) : Prop := Relation.ReflTransGen FStep fileZeroed s

/-- The invariant claimed by the spec for every slot. -/
def fileInv (s : FileSt) : Prop := s.rc > 0 ↔ s.kind ≠ FKind.kNone

end Fs

namespace Vm

/-- Source `vm.rs` `PHY_MASK`. -/
def PHY_MASK : Nat := 0x0000fffffffff000

/-- Source `vm.rs` permission constant `PR` (privileged read-only). -/
def PR : Nat := (1 <<< 54) ||| (1 <<< 53) ||| (0b10 <<< 6)

/-- Source `vm.rs` permission constant `PR_PW` (privileged read/write). -/
def PR_PW : Nat := (1 <<< 54) ||| (1 <<< 53)

/-- Source `Vaddr::l0`. -/
def vl0 (v : Nat) : Nat := (v >>> 39) &&& 0x1ff

/-- Source `Vaddr::l1`. -/
def vl1 (v : Nat) : Nat := (v >>> 30) &&& 0x1ff

/-- Source `Vaddr::l2`. -/
def vl2 (v : Nat) : Nat := (v >>> 21) &&& 0x1ff

/-- Source `Vaddr::l3`. -/
def vl3 (v : Nat) : Nat := (v >>> 12) &&& 0x1ff

/-- Source `vm.rs` `enum Error`. -/
inductive VmError
  | exis (v : Nat)
  | alloc
  | inval
  deriving DecidableEq, Repr

/-- All-ones u128, the source's `!0u128`. -/
def U128M : Nat := 2 ^ 128 - 1

/-- The loop body of `BitSet128::set_nclr` (`stuff.rs`): scan the 128 bits
for a run of `n` clear bits, accumulating the tentative mask in `b` and
the run length in `f`; on a set bit both reset. The `for i in 0..len` loop
is modelled with a fuel argument equal to the remaining iterations. -/
def setNclrGo (back n : Nat) : Nat → Nat → Nat → Nat → Option (Nat × Nat)
  | 0, _, _, _ => none
  | fuel + 1, i, b, f =>
    let bf := if back.testBit i = false then (b ||| (1 <<< i), f + 1) else (back, 0)
    if bf.2 = n then some (i - (n - 1), bf.1)
    else setNclrGo back n fuel (i + 1) bf.1 bf.2

/-- Source `BitSet128::set_nclr` on a 128-bit set (`len = 128`, as built by
`BitSet128::new(128)`): returns the index of the run and the new backing
word. -/
def setNclr (back n : Nat) : Option (Nat × Nat) := setNclrGo back n 128 0 back 0

/-- Source `vm.rs` `struct Region` as instantiated for the scratch window
(`FIXED_PAGES`): a start virtual address plus a `BitSet128::new(128)`
backing word (the `nxt` chain is never populated for this region). -/
structure ScratchR where
  start : Nat
  back : Nat
  deriving DecidableEq, Repr

/-- Source `Region::alloc(n)`: refuse when the bitset is full or `n > 4`, else
reserve a run of `n` pages and return its virtual address. -/
def scrAlloc (r : ScratchR) (n : Nat) : Option (Nat × ScratchR) :=
  if r.back = U128M ∨ n > 4 then none
  else
    match setNclr r.back n with
    | some (i, b) => some (i * 4096 + r.start, { r with back := b })
    | none => none

/-- Source `Region::free_1` / `free_inner`: clear the bit of one page. -/
def scrFree (r : ScratchR) (addr : Nat) : ScratchR :=
  { r with back := r.back &&& (U128M ^^^ (1 <<< ((addr - r.start) / 4096))) }

/-- Number of scratch slots outstanding: the set bits of the backing word. -/
def countBits (back : Nat) : Nat := (List.range 128).countP (fun i => back.testBit i)

/-- A scratch alias handle (`vm.rs` `struct PmWrap`): the slot's kernel
virtual address and, for the model, the physical frame it aliases (in the
kernel this is held by the `FIXED_L3` entry the constructor wrote). -/
structure PmW where
  map : Nat
  target : Nat
  deriving DecidableEq, Repr

/-- Machine state threaded through the page-table code: `mem` is physical
memory viewed as 512-entry tables (`mem p i` = 64-bit word `i` of the 4 KiB
frame at `p`), `scratch` the `FIXED_PAGES` window allocator, `fixedL3` the
statically allocated scratch L3 table, `tlbi` the log of `tlbi_vaee1`
invalidations (most recent first), and `fresh`/`freshPos` an inexhaustible
supply for `pm::alloc` (whose failure is `unreachable!()` in the source). -/
structure VmSt where
  mem : Nat → Nat → Nat
  scratch : ScratchR
  fixedL3 : Nat → Nat
  tlbi : List Nat
  fresh : Nat → Nat
  freshPos : Nat

/-- Update one word of one physical frame. -/
def setMem (st : VmSt) (p i e : Nat) : VmSt :=
  { st with mem := fun q j => if q = p ∧ j = i then e else st.mem q j }

/-- Source `tlbi_vaee1(v)`. -/
def tlbiV (st : VmSt) (v : Nat) : VmSt := { st with tlbi := v :: st.tlbi }

/-- Source `pm::alloc(4096)` inside the table walkers: draw the next frame from
the supply (the source treats allocation failure here as unreachable). -/
def pmAllocPage (st : VmSt) : Nat × VmSt :=
  (st.fresh st.freshPos, { st with freshPos := st.freshPos + 1 })

/-- Source `PmWrap::new(pm, perms, zero)`: mask the physical address, refuse
addresses below the managed window (`Err(Inval)`), borrow one scratch slot
(`Err(Alloc)` when none is free), stamp the `FIXED_L3` leaf with
`pm | perms | 0x403`, invalidate the slot's VA in the TLB, and optionally
zero the aliased frame. -/
def pmWrapNew (st : VmSt) (pm perms : Nat) (zero : Bool) :
    Except VmError (PmW × VmSt) :=
  let pmm := pm &&& PHY_MASK
  if pmm < 0x40000000 then Except.error VmError.inval
  else
    match scrAlloc st.scratch 1 with
    | some (v, sc) =>
        let st := { st with scratch := sc }
        let st := { st with
          fixedL3 := fun j => if j = vl3 v then pmm ||| perms ||| 0x403 else st.fixedL3 j }
        let st := tlbiV st v
        let st := if zero then { st with
          mem := fun q j => if q = pmm then 0 else st.mem q j } else st
        Except.ok ({ map := v, target := pmm }, st)
    | none => Except.error VmError.alloc

/-- Source `Drop for PmWrap`: release the scratch slot. -/
def pmWrapDrop (w : PmW) (st : VmSt) : VmSt :=
  { st with scratch := scrFree st.scratch w.map }

/-- Source `vm.rs` `pt_alloc_if_0_2(idx, pt, new_cb)`: if the entry is zero,
allocate and install a fresh table (entry `ptr | 3`); alias the table
through the scratch window (zeroing it when fresh) and run `new_cb` on a
fresh table. `ncb` receives the physical address of the fresh table. -/
def ptAllocIf02 (idx tbl : Nat) (ncb : Nat → VmSt → VmSt) (st : VmSt) :
    VmSt × Except VmError PmW :=
  let e := st.mem tbl idx
  if e = 0 then
    let (ptr, st) := pmAllocPage st
    let st := setMem st tbl idx (ptr ||| 3)
    match pmWrapNew st ptr PR_PW true with
    | Except.ok (w, st) => (ncb w.target st, Except.ok w)
    | Except.error err => (st, Except.error err)
  else
    match pmWrapNew st e PR_PW false with
    | Except.ok (w, st) => (st, Except.ok w)
    | Except.error err => (st, Except.error err)

/-- Source `vm.rs` `map_v2p_4k_inner(l0_pt, v, p, perms, overw, ncb)`: walk (and
allocate) L0→L3 through scratch aliases, then handle the L3 leaf: a
non-zero entry without `overw` returns `Exists(v)` untouched; otherwise
the leaf is written with `p | perms | 0x403` and the VA invalidated, and
the call returns `Ok(v)` — unless the leaf had been non-zero, in which
case `Exists(v)` is returned even though the write happened. Early
returns drop the aliases acquired so far. -/
def mapV2p4kInner (l0 v p perms : Nat) (overw : Bool)
    (ncb : Nat → VmSt → VmSt) (st : VmSt) : VmSt × Except VmError Nat :=
  match ptAllocIf02 (vl0 v) l0 ncb st with
  | (st, Except.error _) => (st, Except.error VmError.alloc)
  | (st, Except.ok w1) =>
    match ptAllocIf02 (vl1 v) w1.target ncb st with
    | (st, Except.error _) => (pmWrapDrop w1 st, Except.error VmError.alloc)
    | (st, Except.ok w2) =>
      match ptAllocIf02 (vl2 v) w2.target ncb st with
      | (st, Except.error _) =>
          (pmWrapDrop w1 (pmWrapDrop w2 st), Except.error VmError.alloc)
      | (st, Except.ok w3) =>
        let e3 := st.mem w3.target (vl3 v)
        if e3 ≠ 0 ∧ overw = false then
          (pmWrapDrop w1 (pmWrapDrop w2 (pmWrapDrop w3 st)), Except.error (VmError.exis v))
        else
          let st := setMem st w3.target (vl3 v) (p ||| perms ||| 0x403)
          let st := tlbiV st v
          if e3 ≠ 0 then
            (pmWrapDrop w1 (pmWrapDrop w2 (pmWrapDrop w3 st)), Except.error (VmError.exis v))
          else
            (pmWrapDrop w1 (pmWrapDrop w2 (pmWrapDrop w3 st)), Except.ok v)

/-- Source `vm.rs` `walk_to_l3(l0_pt, v)`: follow the three intermediate entries,
failing with `Inval` on a zero entry, and return an alias of the L3 table.
The aliases of the intermediate tables are dropped on exit. -/
def walkToL3 (l0 v : Nat) (st : VmSt) : VmSt × Except VmError PmW :=
  let e1 := st.mem l0 (vl0 v)
  if e1 = 0 then (st, Except.error VmError.inval)
  else
    match pmWrapNew st e1 PR false with
    | Except.error err => (st, Except.error err)
    | Except.ok (w1, st) =>
      let e2 := st.mem w1.target (vl1 v)
      if e2 = 0 then (pmWrapDrop w1 st, Except.error VmError.inval)
      else
        match pmWrapNew st e2 PR false with
        | Except.error err => (pmWrapDrop w1 st, Except.error err)
        | Except.ok (w2, st) =>
          let e3 := st.mem w2.target (vl2 v)
          if e3 = 0 then (pmWrapDrop w1 (pmWrapDrop w2 st), Except.error VmError.inval)
          else
            match pmWrapNew st e3 PR_PW false with
            | Except.error err => (pmWrapDrop w1 (pmWrapDrop w2 st), Except.error err)
            | Except.ok (w3, st) =>
                (pmWrapDrop w1 (pmWrapDrop w2 st), Except.ok w3)

/-- Source `vm.rs` `v2p_pt(l0_pt, v, cb)`: walk to the L3 table, optionally let
the callback rewrite the leaf in place, and return
`(*ptr & PHY_MASK) | (v & 0xfff)` — note the leaf itself is never checked
for zero. -/
def v2pPt (l0 v : Nat) (cb : Option (Nat → Nat)) (st : VmSt) :
    VmSt × Except VmError Nat :=
  match walkToL3 l0 v st with
  | (st, Except.error err) => (st, Except.error err)
  | (st, Except.ok w3) =>
    match cb with
    | some f =>
        let e := f (st.mem w3.target (vl3 v))
        let st := setMem st w3.target (vl3 v) e
        (pmWrapDrop w3 st, Except.ok ((e &&& PHY_MASK) ||| (v &&& 0xfff)))
    | none =>
        let e := st.mem w3.target (vl3 v)
        (pmWrapDrop w3 st, Except.ok ((e &&& PHY_MASK) ||| (v &&& 0xfff)))

end Vm

namespace P9

/-- Source `p9.rs` `struct QID`. -/
structure QID where
  kind : Nat
  version : Nat
  path : Nat
  deriving DecidableEq, Repr

instance : Inhabited QID := ⟨⟨0, 0, 0⟩⟩

/-- Source `Op::RWALK`. -/
def RWALK : Nat := 111

/-- The splitting underlying Rust's `str::split('/')`: every maximal run
between separators becomes one (possibly empty) component. -/
def splitSlash : List Char → List (List Char)
  | [] => [[]]
  | c :: cs =>
      if c = '/' then [] :: splitSlash cs
      else
        match splitSlash cs with
        | h :: t => (c :: h) :: t
        | [] => [[c]]

/-- The fields of the T-walk message that `ops::walk` frames: source fid,
freshly allocated new fid, and the name vector. -/
structure WalkReq where
  fid : Nat
  newfid : Nat
  wnames : List (List Char)
  deriving DecidableEq, Repr

/-- The R-message the server answers with: its kind byte, the `nwqid`
count field, and the qid array. -/
structure WalkReply where
  kind : Nat
  nwqid : Nat
  qids : List QID
  deriving DecidableEq, Repr

/-- What a call to `ops::walk` does: the request it published into the
virtqueue (if any) and the value it returns. -/
structure WalkOut where
  req : Option WalkReq
  res : Option (Except Unit (Nat × QID))
  deriving Repr

/-- Source `ops::path_to_wnames`: split on '/' and drop empty components. -/
def pathToWnames (path : List Char) : List (List Char) :=
  (splitSlash path).filter (fun s => s ≠ [])

/-- A family of concrete paths "a/a/.../a/" with `n` non-empty
components, used to exercise the walk on arbitrarily long name vectors. -/
def repSeg : Nat → List Char
  | 0 => []
  | n + 1 => 'a' :: '/' :: repSeg n

/-- Source `p9.rs` `ops::walk(path)`, parameterised by the cached root qid, the
fid drawn from the bitset, and the server's reply. An empty path fails; the
literal path "/" returns `(0, root qid)` without queueing any message; a
name vector longer than `u16::MAX` fails without queueing anything;
otherwise one T-walk from fid 0 carrying the whole name vector is queued,
and the reply is accepted only if its kind is `RWALK` and its qid count
equals the number of names. On acceptance the returned qid is the one at
index `nwqid - 1`; for an accepted reply with `nwqid = 0` (an empty name
vector, e.g. the path "//") the source's `for _ in 0..qid_len - 1` skip
loop underflows and reads out of bounds — `res = none` models that
panic. -/
def walkModel (rootQid : QID) (newfid : Nat) (path : List Char)
    (reply : WalkReply) : WalkOut :=
  if path = [] then ⟨none, some (Except.error ())⟩
  else if path = ['/'] then ⟨none, some (Except.ok (0, rootQid))⟩
  else
    let wnames := pathToWnames path
    if wnames.length > 65535 then ⟨none, some (Except.error ())⟩
    else
      let req := some (WalkReq.mk 0 newfid wnames)
      if reply.kind ≠ RWALK then ⟨req, some (Except.error ())⟩
      else if reply.nwqid ≠ wnames.length then ⟨req, some (Except.error ())⟩
      else if reply.nwqid = 0 then ⟨req, none⟩
      else ⟨req, some (Except.ok (newfid, reply.qids.getD (reply.nwqid - 1) default))⟩

end P9

namespace Vm

/-- A concrete four-level table chain in physical memory, with a non-zero
leaf for `v = 0x123`: used to exercise the walkers on explicit input. -/
def exMem : Nat → Nat → Nat := fun q j =>
  if q = 0x50000000 ∧ j = 0 then 0x50001003
  else if q = 0x50001000 ∧ j = 0 then 0x50002003
  else if q = 0x50002000 ∧ j = 0 then 0x50003003
  else if q = 0x50003000 ∧ j = 0 then 0x60000403
  else 0

/-- Same chain but with the L3 leaf for `v = 0x123` left zero. -/
def exMemZ : Nat → Nat → Nat := fun q j =>
  if q = 0x50000000 ∧ j = 0 then 0x50001003
  else if q = 0x50001000 ∧ j = 0 then 0x50002003
  else if q = 0x50002000 ∧ j = 0 then 0x50003003
  else 0

/-- The scratch window as initialised by `init_regions`: start at the top
megabyte of the kernel half, no slots outstanding. -/
def exScr : ScratchR := ⟨0xfffffffffff00000, 0⟩

/-- Machine state with the non-zero-leaf chain and an idle scratch window. -/
def exSt : VmSt :=
  ⟨exMem, exScr, fun _ => 0, [], fun i => 0x70000000 + 4096 * i, 0⟩

/-- Machine state with the zero-leaf chain and an idle scratch window. -/
def exStZ : VmSt :=
  ⟨exMemZ, exScr, fun _ => 0, [], fun i => 0x70000000 + 4096 * i, 0⟩

/-- Machine state whose scratch window has all 128 slots outstanding. -/
def exStFull : VmSt :=
  ⟨exMem, ⟨0xfffffffffff00000, U128M⟩, fun _ => 0, [], fun i => 0x70000000 + 4096 * i, 0⟩

end Vm

/-! ## Theorems -/

/-- C8: for every block address `a` and order `k < 8`, the buddy function of
`pm.rs` is an involution: `buddy(buddy(a, k), k) = a`, where
`buddy(a, k) = a XOR (4096 << (8 - k))`. -/
theorem C8_buddy_involution (a k : Nat) (h : k < 8) :
    Pm.getBuddy (Pm.getBuddy a k) k = a := by
  unfold Pm.getBuddy
  rw [Nat.xor_assoc, Nat.xor_self, Nat.xor_zero]

/-- Witness for C8 at `a = 0x40000000`, `k = 3`. -/
theorem C8_buddy_involution_witness :
    3 < 8 ∧ Pm.getBuddy (Pm.getBuddy 0x40000000 3) 3 = 0x40000000 :=
  ⟨by decide, C8_buddy_involution 0x40000000 3 (by decide)⟩

/-- C10: a zero-byte request is rejected by the frame allocator: for every
allocator state, `alloc(0)` returns `Err` and returns the state — free
lists, page flags and refcounts — unchanged (`_alloc` bails out on its
first line, before touching anything). -/
theorem C10_alloc_zero_rejected (a : Pm.AllocatorM) :
    Pm.pmAlloc a 0 = (Except.error (), a) := by
  unfold Pm.pmAlloc Pm.allocM Pm.allocInner
  simp

/-- C1 (failing input): `sched.rs::find_region` on an address that lies
inside the task's mmap region but not in its brk region returns the *brk*
region — a region that does not contain the faulting address — because the
branch guarded by `task.mmap.has(v)` returns `task.brk`. -/
theorem C1_findRegion_mmap_returns_brk :
    (Sched.findRegion
        ⟨⟨Sched.RegionType.brk, 0x80000000, Pm.GB, 4096, 3, 0⟩,
         ⟨Sched.RegionType.mmap, 0x40000000, Pm.GB, 4096, 3, 0⟩, []⟩
        0x40000000
      = some ⟨Sched.RegionType.brk, 0x80000000, Pm.GB, 4096, 3, 0⟩) ∧
    Sched.regionHas ⟨Sched.RegionType.mmap, 0x40000000, Pm.GB, 4096, 3, 0⟩ 0x40000000 = true ∧
    Sched.regionHas ⟨Sched.RegionType.brk, 0x80000000, Pm.GB, 4096, 3, 0⟩ 0x40000000 = false := by
  decide

/-- Six statements into `sleep` the sleeper has reached its switched-out
state, and it stays there. -/
theorem sleepTrace_stable (c m : Nat) :
    Sched.sleepTrace c (m + 6) = Sched.sleepFinal c := by
  induction m with
  | zero =>
      simp [Sched.sleepTrace, Sched.sleepStep, Sched.sleepInit, Sched.sleepFinal]
  | succ n ih =>
      show Sched.sleepStep c (Sched.sleepTrace c (n + 6)) = _
      rw [ih]
      simp [Sched.sleepStep, Sched.sleepFinal]

/-- C4 (counterexample): in `sched.rs::sleep` the external lock is released
*before* the channel and the Sleeping state are published: immediately
after the release statement (the first trace point with the external lock
free) the task is still Running and its channel is still `None`. -/
theorem C4_sleep_publishes_after_release :
    (Sched.sleepTrace 42 1).extHeld = true ∧
    (Sched.sleepTrace 42 2).extHeld = false ∧
    (Sched.sleepTrace 42 2).st ≠ Sched.TState.sleeping ∧
    (Sched.sleepTrace 42 2).chan = none := by
  refine ⟨?_, ?_, ?_, ?_⟩ <;>
    simp [Sched.sleepTrace, Sched.sleepStep, Sched.sleepInit]

/-- C4 (amended): `sleep(chan, lock)` acquires the task's own slot lock
before releasing the external lock and publishes the channel and the
Sleeping state while still holding it, and `wakeup` examines a task only
under that slot lock; hence at every point of the sleep trace at which the
external lock has been released and the slot lock is free, the task is
Sleeping with its channel published, and a `wakeup(chan)` running there
transitions it to Ready — the wakeup is never lost. -/
theorem C4_sleep_wakeup_not_lost (c k : Nat)
    (h1 : (Sched.sleepTrace c k).extHeld = false)
    (h2 : (Sched.sleepTrace c k).taskHeld = false) :
    (Sched.sleepTrace c k).st = Sched.TState.sleeping ∧
    (Sched.sleepTrace c k).chan = some c ∧
    (Sched.wakeupStep c (Sched.sleepTrace c k)).st = Sched.TState.ready := by
  rcases Nat.lt_or_ge k 6 with hk | hk
  · interval_cases k <;>
      simp_all [Sched.sleepTrace, Sched.sleepStep, Sched.sleepInit, Sched.wakeupStep]
  · obtain ⟨m, rfl⟩ : ∃ m, k = m + 6 := ⟨k - 6, by omega⟩
    rw [sleepTrace_stable] at h1 h2 ⊢
    refine ⟨rfl, rfl, ?_⟩
    simp [Sched.sleepFinal, Sched.wakeupStep]

/-- Witness for C4 at `chan = 5`, trace point 6. -/
theorem C4_sleep_wakeup_not_lost_witness :
    (Sched.sleepTrace 5 6).extHeld = false ∧
    (Sched.sleepTrace 5 6).taskHeld = false ∧
    (Sched.wakeupStep 5 (Sched.sleepTrace 5 6)).st = Sched.TState.ready := by
  have he : (Sched.sleepTrace 5 6).extHeld = false := by
    simp [Sched.sleepTrace, Sched.sleepStep, Sched.sleepInit]
  have ht : (Sched.sleepTrace 5 6).taskHeld = false := by
    simp [Sched.sleepTrace, Sched.sleepStep, Sched.sleepInit]
  exact ⟨he, ht, (C4_sleep_wakeup_not_lost 5 6 he ht).2.2⟩

/-- C5 (counterexample): the slot state `{kind = Cons, rc = 0}` is reachable
(open the console, then close its only reference: the `Cons` arm of the
`close` destructor is empty and does not reset the kind), and it violates
the claimed invariant `ref_cnt > 0 ⇔ kind ≠ None`. -/
theorem C5_console_close_breaks_invariant :
    Fs.FReach ⟨Fs.FKind.kCons, 0⟩ ∧ ¬ Fs.fileInv ⟨Fs.FKind.kCons, 0⟩ := by
  constructor
  · have h1 : Fs.FStep Fs.fileZeroed ⟨Fs.FKind.kCons, 1⟩ :=
      Fs.FStep.openCons _ rfl
    have h2 : Fs.FStep ⟨Fs.FKind.kCons, 1⟩ ⟨Fs.FKind.kCons, 0⟩ := by
      have h := Fs.FStep.close ⟨Fs.FKind.kCons, 1⟩ true (Or.inr rfl)
      simpa [Fs.closeM] using h
    exact Relation.ReflTransGen.head h1 (Relation.ReflTransGen.single h2)
  · simp [Fs.fileInv]

/-- Auxiliary invariant of the file pool, preserved by every file-table
operation: a `None` slot has no references, a `9P` slot has at least one,
and completed operations never leave a slot in the transient `Used` kind. -/
theorem fReach_invariant (t : Fs.FileSt) (ht : Fs.FReach t) :
    (t.kind = Fs.FKind.kNone → t.rc = 0) ∧
    (t.kind = Fs.FKind.kP9 → 1 ≤ t.rc) ∧
    t.kind ≠ Fs.FKind.kUsed := by
  induction ht with
  | refl => simp [Fs.fileZeroed]
  | tail hab hbc ih =>
      rename_i b c
      obtain ⟨ih1, ih2, ih3⟩ := ih
      cases hbc with
      | openOk h => simp
      | openFail h => exact ⟨fun _ => ih1 h, by simp, by simp⟩
      | openCons h => simp
      | dup h =>
          refine ⟨fun hk => absurd (ih1 hk) (by omega), fun _ => ?_, ?_⟩
          · show 1 ≤ b.rc + 1
            omega
          · show b.kind ≠ Fs.FKind.kUsed
            exact ih3
      | close ck h =>
          obtain ⟨bk, brc⟩ := b
          unfold Fs.closeM
          rcases h with h | h <;> cases h <;>
            split_ifs with h0 h1 <;> cases ck <;> simp_all <;> omega

/-- C5 (amended): for every reachable slot of the file pool the direction
`ref_cnt > 0 ⇒ kind ≠ None` of the claimed invariant holds, and the full
equivalence `ref_cnt > 0 ⇔ kind ≠ None` holds for every non-console slot;
a console slot whose last reference has been closed keeps `kind = Cons`
with `ref_cnt = 0` (the console destructor is a no-op that does not reset
the kind), which is the only failure of the equivalence. 9P slots do reset
to `None` on their last close. -/
theorem C5_file_invariant_amended (s : Fs.FileSt) (h : Fs.FReach s) :
    (s.rc > 0 → s.kind ≠ Fs.FKind.kNone) ∧
    (s.kind ≠ Fs.FKind.kCons → (s.rc > 0 ↔ s.kind ≠ Fs.FKind.kNone)) ∧
    Fs.closeM true ⟨Fs.FKind.kP9, 1⟩ = ⟨Fs.FKind.kNone, 0⟩ ∧
    Fs.closeM true ⟨Fs.FKind.kCons, 1⟩ = ⟨Fs.FKind.kCons, 0⟩ := by
  obtain ⟨h1, h2, h3⟩ := fReach_invariant s h
  refine ⟨?_, ?_, by simp [Fs.closeM], by simp [Fs.closeM]⟩
  · intro hrc hk
    exact absurd (h1 hk) (by omega)
  · intro hk
    cases hks : s.kind with
    | kNone => simp_all
    | kUsed => simp_all
    | kP9 => have := h2 hks; simp_all; omega
    | kCons => simp_all

/-- Witness for C5 at the reachable slot `{kind = 9P, rc = 1}`. -/
theorem C5_file_invariant_amended_witness :
    Fs.FReach ⟨Fs.FKind.kP9, 1⟩ ∧
    ((⟨Fs.FKind.kP9, 1⟩ : Fs.FileSt).rc > 0 ↔
      (⟨Fs.FKind.kP9, 1⟩ : Fs.FileSt).kind ≠ Fs.FKind.kNone) := by
  have hr : Fs.FReach ⟨Fs.FKind.kP9, 1⟩ :=
    Relation.ReflTransGen.single (Fs.FStep.openOk _ rfl)
  exact ⟨hr, ((C5_file_invariant_amended _ hr).2.1 (by decide))⟩

/-- Masking with `!4095` (64-bit) truncates to a multiple of 4096. -/
theorem alignB_eq_of_lt (m : Nat) (hm : m < Pm.U64) :
    Pm.alignB m 4096 = 4096 * (m / 4096) := by
  unfold Pm.alignB
  apply Nat.eq_of_testBit_eq
  intro i
  have hmask : Pm.U64 - 4096 = 2 ^ 12 * (2 ^ 52 - 1) := by norm_num [Pm.U64]
  have hr : 4096 * (m / 4096) = 2 ^ 12 * (m / 2 ^ 12) := by norm_num
  rw [Nat.testBit_and, hmask, hr, Nat.testBit_mul_pow_two, Nat.testBit_mul_pow_two]
  rcases Nat.lt_or_ge i 12 with h12 | h12
  · simp [Nat.not_le_of_lt h12]
  · have hi : 12 + (i - 12) = i := by omega
    have hdiv : m / 2 ^ 12 = m >>> 12 := (Nat.shiftRight_eq_div_pow m 12).symm
    rw [hdiv, Nat.testBit_shiftRight, hi, Nat.testBit_two_pow_sub_one]
    rcases Nat.lt_or_ge i 64 with h64 | h64
    · have : i - 12 < 52 := by omega
      simp [Nat.le_of_lt, h12, this]
    · have hbig : m.testBit i = false :=
        Nat.testBit_eq_false_of_lt
          (lt_of_lt_of_le hm (Nat.pow_le_pow_right (by norm_num) h64))
      have : ¬ (i - 12 < 52) := by omega
      simp [hbig, this]

/-- For `1 ≤ n ≤ 2^64 - 4096` the source's `align_f(n, 4096)` is the usual
round-up to the next multiple of 4096 (no wrap-around). -/
theorem alignF_eq_roundup (n : Nat) (h1 : 1 ≤ n) (h2 : n ≤ Pm.U64 - 4096) :
    Pm.alignF n 4096 = ((n - 1) / 4096 + 1) * 4096 := by
  unfold Pm.alignF
  have hU : 4096 ≤ Pm.U64 := by norm_num [Pm.U64]
  have hmod : (n + (Pm.U64 - 1)) % Pm.U64 = n - 1 := by
    have he : n + (Pm.U64 - 1) = (n - 1) + 1 * Pm.U64 := by omega
    rw [he, Nat.add_mul_mod_self_right]
    exact Nat.mod_eq_of_lt (by omega)
  rw [hmod, alignB_eq_of_lt (n - 1) (by omega)]
  have hle : 4096 * ((n - 1) / 4096) ≤ n - 1 := Nat.mul_div_le (n - 1) 4096 |>.trans_eq rfl
  rw [Nat.mod_eq_of_lt (by omega)]
  omega

/-- Source `align_f(0, 4096)` wraps to 0: a zero brk request rounds to 0. -/
theorem alignF_zero : Pm.alignF 0 4096 = 0 := by decide

/-- Requests in the last page of the 64-bit space also round (wrap) to 0. -/
theorem alignF_wrap_zero (n : Nat) (h1 : Pm.U64 - 4096 < n) (h2 : n < Pm.U64) :
    Pm.alignF n 4096 = 0 := by
  unfold Pm.alignF
  have hmod : (n + (Pm.U64 - 1)) % Pm.U64 = n - 1 := by
    have he : n + (Pm.U64 - 1) = (n - 1) + 1 * Pm.U64 := by omega
    rw [he, Nat.add_mul_mod_self_right]
    exact Nat.mod_eq_of_lt (by omega)
  rw [hmod, alignB_eq_of_lt (n - 1) (by omega)]
  have hu : Pm.U64 = 2 ^ 64 := rfl
  have hdiv : (n - 1) / 4096 = 2 ^ 52 - 1 := by
    rw [hu] at h1 h2
    norm_num at h1 h2 ⊢
    omega
  rw [hdiv]
  norm_num [Pm.U64]

/-- Source `brk` leaves the break unchanged whenever the rounded request is at or
below the current break, or overshoots it by more than 10 MiB. -/
theorem brkModel_unchanged (r : Sched.RegionM) (req : Nat)
    (h : Pm.alignF req 4096 ≤ Sched.regionEnd r ∨
         Sched.regionEnd r + 10 * Pm.MB < Pm.alignF req 4096) :
    Sched.brkModel r req = some ⟨Sched.regionEnd r, r, [], none⟩ := by
  have hm : (10 : Nat) * Pm.MB = 10485760 := by norm_num [Pm.MB]
  unfold Sched.brkModel
  dsimp only
  split_ifs with h1 h2 h3 h4
  · rfl
  · rfl
  · rfl
  · rfl
  · exfalso
    rcases h with h | h <;> omega

/-- C9: the `brk` syscall never shrinks the heap. With the brk arena as
`alloc_task` builds it (base 2 GiB, page-aligned length of at most 1 GiB)
and any 64-bit requested address: if the request is 0, at or below the
current break, or more than 10 MiB above it, the break is unchanged and
the current break is returned; otherwise the break advances to the 4 KiB
rounded request, every page of the new range is mapped with the
user-writable permission `PR_PW_UR_UW1`, the new range is zero-filled, and
the new break is returned. -/
theorem C9_brk_never_shrinks (r : Sched.RegionM) (req : Nat)
    (hv : r.vaddr = 2 * Pm.GB) (hl : r.len ≤ Pm.GB) (ha : r.len % 4096 = 0)
    (hreq : req < Pm.U64) :
    (req = 0 ∨ req ≤ Sched.regionEnd r ∨ Sched.regionEnd r + 10 * Pm.MB < req →
      Sched.brkModel r req = some ⟨Sched.regionEnd r, r, [], none⟩) ∧
    (0 < req → Sched.regionEnd r < req → req ≤ Sched.regionEnd r + 10 * Pm.MB →
      Sched.regionEnd r < Pm.alignF req 4096 ∧
      Sched.brkModel r req =
        some ⟨Pm.alignF req 4096,
          { r with len := r.len + (Pm.alignF req 4096 - Sched.regionEnd r) },
          (List.range ((Pm.alignF req 4096 - Sched.regionEnd r) / 4096)).map
            (fun i => (Sched.regionEnd r + i * 4096, Sched.PR_PW_UR_UW1)),
          some (Sched.regionEnd r, Pm.alignF req 4096 - Sched.regionEnd r)⟩) := by
  have hg : Pm.GB = 1073741824 := by norm_num [Pm.GB]
  have hm : (10 : Nat) * Pm.MB = 10485760 := by norm_num [Pm.MB]
  have hu : Pm.U64 = 2 ^ 64 := rfl
  have hpos : Sched.regionEnd r = r.len + 2 * Pm.GB := by
    simp [Sched.regionEnd, hv]
  constructor
  · intro h
    rcases h with h | h | h
    · subst h
      exact brkModel_unchanged r 0 (Or.inl (by rw [alignF_zero]; omega))
    · rcases Nat.eq_zero_or_pos req with h0 | h0
      · subst h0
        exact brkModel_unchanged r 0 (Or.inl (by rw [alignF_zero]; omega))
      · refine brkModel_unchanged r req (Or.inl ?_)
        rw [alignF_eq_roundup req h0 (by rw [hu]; norm_num; omega)]
        omega
    · rcases Nat.lt_or_ge (Pm.U64 - 4096) req with hw | hw
      · refine brkModel_unchanged r req (Or.inl ?_)
        rw [alignF_wrap_zero req hw hreq]
        omega
      · refine brkModel_unchanged r req (Or.inr ?_)
        rw [alignF_eq_roundup req (by omega) hw]
        omega
  · intro h0 hlow hhigh
    have hsmall : req ≤ Pm.U64 - 4096 := by rw [hu]; norm_num; omega
    have hnp := alignF_eq_roundup req h0 hsmall
    have hge : req ≤ ((req - 1) / 4096 + 1) * 4096 := by omega
    have hlt : Sched.regionEnd r < ((req - 1) / 4096 + 1) * 4096 := by omega
    have hcap : ((req - 1) / 4096 + 1) * 4096 ≤ Sched.regionEnd r + 10 * Pm.MB := by
      omega
    refine ⟨by omega, ?_⟩
    have halloc :
        Sched.regionAlloc r (((req - 1) / 4096 + 1) * 4096 - Sched.regionEnd r) =
          some (Sched.regionEnd r,
            { r with len := r.len + (((req - 1) / 4096 + 1) * 4096 - Sched.regionEnd r) }) := by
      unfold Sched.regionAlloc Sched.REGION_MAX_SZ
      rw [if_neg (by omega)]
      have : r.vaddr + r.len = Sched.regionEnd r := by simp [Sched.regionEnd]; omega
      rw [this]
    unfold Sched.brkModel
    dsimp only
    rw [hnp, if_neg (by omega), if_neg (by omega), if_neg (by omega),
      if_neg (by omega), halloc]

/-- Witness for C9: a fresh brk arena (base 2 GiB, empty) and the request
`2 GiB + 5`, which advances the break by one page. -/
theorem C9_brk_never_shrinks_witness :
    Sched.regionEnd ⟨Sched.RegionType.brk, 2 * Pm.GB, Pm.GB, 0, 3, 0⟩ <
      Pm.alignF (2 * Pm.GB + 5) 4096 ∧
    Sched.brkModel ⟨Sched.RegionType.brk, 2 * Pm.GB, Pm.GB, 0, 3, 0⟩ (2 * Pm.GB + 5) =
      some ⟨Pm.alignF (2 * Pm.GB + 5) 4096,
        { (⟨Sched.RegionType.brk, 2 * Pm.GB, Pm.GB, 0, 3, 0⟩ : Sched.RegionM) with
            len := 0 + (Pm.alignF (2 * Pm.GB + 5) 4096 -
              Sched.regionEnd ⟨Sched.RegionType.brk, 2 * Pm.GB, Pm.GB, 0, 3, 0⟩) },
        (List.range ((Pm.alignF (2 * Pm.GB + 5) 4096 -
            Sched.regionEnd ⟨Sched.RegionType.brk, 2 * Pm.GB, Pm.GB, 0, 3, 0⟩) / 4096)).map
          (fun i => (Sched.regionEnd ⟨Sched.RegionType.brk, 2 * Pm.GB, Pm.GB, 0, 3, 0⟩ +
            i * 4096, Sched.PR_PW_UR_UW1)),
        some (Sched.regionEnd ⟨Sched.RegionType.brk, 2 * Pm.GB, Pm.GB, 0, 3, 0⟩,
          Pm.alignF (2 * Pm.GB + 5) 4096 -
            Sched.regionEnd ⟨Sched.RegionType.brk, 2 * Pm.GB, Pm.GB, 0, 3, 0⟩)⟩ :=
  (C9_brk_never_shrinks ⟨Sched.RegionType.brk, 2 * Pm.GB, Pm.GB, 0, 3, 0⟩ (2 * Pm.GB + 5)
      rfl (by norm_num) (by norm_num) (by norm_num [Pm.GB, Pm.U64])).2
    (by norm_num) (by norm_num [Sched.regionEnd, Pm.GB])
    (by norm_num [Sched.regionEnd, Pm.GB, Pm.MB])

/-- C6 (counterexample): the scratch window's allocator is a 128-bit
bitset, not a 512-slot one. In the state with all 128 slots outstanding —
fewer than the 512 the claim allows — creating one more scratch alias
fails with `Err(Alloc)`. -/
theorem C6_scratch_full_at_128 :
    Vm.countBits Vm.exStFull.scratch.back = 128 ∧ (128 : Nat) < 512 ∧
    Vm.pmWrapNew Vm.exStFull 0x50000000 Vm.PR false = Except.error Vm.VmError.alloc := by
  refine ⟨by decide, by norm_num, ?_⟩
  rfl

/-- If every bit of the backing word below 128 were set, the word would be
the full mask; hence a word other than `!0u128` has a clear bit. -/
theorem exists_clear_bit (back : Nat) (h : Vm.countBits back < 128) :
    ∃ j, j < 128 ∧ back.testBit j = false := by
  by_contra hc
  push_neg at hc
  have hall : ∀ a ∈ List.range 128, (fun i => back.testBit i) a = true := by
    intro a ha
    have := hc a (List.mem_range.mp ha)
    simpa using this
  have hcp : (List.range 128).countP (fun i => back.testBit i) = (List.range 128).length :=
    List.countP_eq_length.mpr hall
  unfold Vm.countBits at h
  rw [List.length_range] at hcp
  omega

/-- One unrolling of the `set_nclr` scan loop. -/
theorem setNclrGo_succ (back n fuel i b f : Nat) :
    Vm.setNclrGo back n (fuel + 1) i b f =
      (let bf := if back.testBit i = false then (b ||| (1 <<< i), f + 1) else (back, 0)
       if bf.2 = n then some (i - (n - 1), bf.1)
       else Vm.setNclrGo back n fuel (i + 1) bf.1 bf.2) := rfl

/-- The `set_nclr` scan with `n = 1` finds a slot whenever some bit in the
remaining range is clear. -/
theorem setNclrGo_one_isSome (back : Nat) :
    ∀ fuel i b, (∃ j, i ≤ j ∧ j < i + fuel ∧ back.testBit j = false) →
      (Vm.setNclrGo back 1 fuel i b 0).isSome = true := by
  intro fuel
  induction fuel with
  | zero =>
      intro i b h
      obtain ⟨j, h1, h2, _⟩ := h
      omega
  | succ m ih =>
      intro i b h
      rw [setNclrGo_succ]
      cases hx : back.testBit i with
      | false => simp [hx]
      | true =>
          simp only [hx]
          have hred :
              ((if (true = false) then (b ||| (1 <<< i), 0 + 1) else (back, 0)).2 = 1) = False := by
            simp
          simp only [hred, if_false]
          have hbf :
              (if (true = false) then (b ||| (1 <<< i), (0 : Nat) + 1) else (back, 0)) =
                (back, 0) := by simp
          rw [hbf]
          apply ih
          obtain ⟨j, h1, h2, h3⟩ := h
          have hne : j ≠ i := by
            intro he
            rw [he, hx] at h3
            cases h3
          exact ⟨j, by omega, by omega, h3⟩

/-- C6 (amended): the fixed scratch window provides 128 (not 512) usable
slots: in every state with fewer than 128 scratch aliases outstanding,
`PmWrap::new` on a managed physical frame (address ≥ `0x4000_0000` after
masking) succeeds. -/
theorem C6_scratch_alloc_succeeds (st : Vm.VmSt) (pm perms : Nat) (zero : Bool)
    (hout : Vm.countBits st.scratch.back < 128)
    (hpm : 0x40000000 ≤ pm &&& Vm.PHY_MASK) :
    ∃ w st2, Vm.pmWrapNew st pm perms zero = Except.ok (w, st2) := by
  obtain ⟨j, hj, hjc⟩ := exists_clear_bit st.scratch.back hout
  have hne : st.scratch.back ≠ Vm.U128M := by
    intro he
    rw [he] at hjc
    have : Nat.testBit Vm.U128M j = true := by
      unfold Vm.U128M
      rw [Nat.testBit_two_pow_sub_one]
      simpa using hj
    rw [this] at hjc
    cases hjc
  have hsome : (Vm.setNclr st.scratch.back 1).isSome = true := by
    unfold Vm.setNclr
    exact setNclrGo_one_isSome st.scratch.back 128 0 st.scratch.back ⟨j, by omega, by omega, hjc⟩
  obtain ⟨⟨i, b⟩, hsn⟩ := Option.isSome_iff_exists.mp hsome
  unfold Vm.pmWrapNew
  rw [if_neg (by omega)]
  unfold Vm.scrAlloc
  rw [if_neg (by simp [hne]), hsn]
  exact ⟨_, _, rfl⟩

/-- Witness for C6: the idle scratch state and the frame at `0x50000000`. -/
theorem C6_scratch_alloc_succeeds_witness :
    Vm.countBits Vm.exSt.scratch.back < 128 ∧
    ∃ w st2, Vm.pmWrapNew Vm.exSt 0x50000000 Vm.PR_PW false = Except.ok (w, st2) :=
  ⟨by decide, C6_scratch_alloc_succeeds Vm.exSt 0x50000000 Vm.PR_PW false
    (by decide) (by decide)⟩

/-- C3 (counterexample): with the intermediate L1/L2/L3 tables present but
the L3 leaf entry zero (state `exStZ`, `v = 0x123`), `v2p_pt` does not
return `Err(Inval)`: it returns `Ok(0 | (v & 0xfff)) = Ok(0x123)`, because
the walk never checks the leaf itself for zero. -/
theorem C3_translate_zero_leaf_ok :
    Vm.exMemZ 0x50003000 (Vm.vl3 0x123) = 0 ∧
    (Vm.v2pPt 0x50000000 0x123 none Vm.exStZ).2 = Except.ok 0x123 ∧
    (Vm.v2pPt 0x50000000 0x123 none Vm.exStZ).2 ≠ Except.error Vm.VmError.inval := by
  have h : (Vm.v2pPt 0x50000000 0x123 none Vm.exStZ).2 = Except.ok 0x123 := rfl
  refine ⟨rfl, h, ?_⟩
  rw [h]
  intro hcon
  exact Except.noConfusion hcon

/-- C3 (amended): against any root and state with an idle scratch window,
`translate` (`v2p_pt` without callback) returns `Err(Inval)` when any
intermediate entry on the walk — at L0, L1 or L2 — is zero; when the three
intermediate entries are non-zero managed addresses it returns
`Ok((l3_entry & PHY_MASK) | (v & 0xfff))` — the mapped physical address
when a leaf mapping exists, but `Ok(v & 0xfff)` (not an error) when the
L3 leaf entry is zero. -/
theorem C3_translate_behaviour (st : Vm.VmSt) (l0 v : Nat)
    (hsc : st.scratch.back = 0) :
    (st.mem l0 (Vm.vl0 v) = 0 →
      (Vm.v2pPt l0 v none st).2 = Except.error Vm.VmError.inval) ∧
    (∀ e1,
      st.mem l0 (Vm.vl0 v) = e1 → e1 ≠ 0 → 0x40000000 ≤ e1 &&& Vm.PHY_MASK →
      st.mem (e1 &&& Vm.PHY_MASK) (Vm.vl1 v) = 0 →
      (Vm.v2pPt l0 v none st).2 = Except.error Vm.VmError.inval) ∧
    (∀ e1 e2,
      st.mem l0 (Vm.vl0 v) = e1 → e1 ≠ 0 → 0x40000000 ≤ e1 &&& Vm.PHY_MASK →
      st.mem (e1 &&& Vm.PHY_MASK) (Vm.vl1 v) = e2 → e2 ≠ 0 →
        0x40000000 ≤ e2 &&& Vm.PHY_MASK →
      st.mem (e2 &&& Vm.PHY_MASK) (Vm.vl2 v) = 0 →
      (Vm.v2pPt l0 v none st).2 = Except.error Vm.VmError.inval) ∧
    (∀ e1 e2 e3,
      st.mem l0 (Vm.vl0 v) = e1 → e1 ≠ 0 → 0x40000000 ≤ e1 &&& Vm.PHY_MASK →
      st.mem (e1 &&& Vm.PHY_MASK) (Vm.vl1 v) = e2 → e2 ≠ 0 →
        0x40000000 ≤ e2 &&& Vm.PHY_MASK →
      st.mem (e2 &&& Vm.PHY_MASK) (Vm.vl2 v) = e3 → e3 ≠ 0 →
        0x40000000 ≤ e3 &&& Vm.PHY_MASK →
      (Vm.v2pPt l0 v none st).2 =
        Except.ok ((st.mem (e3 &&& Vm.PHY_MASK) (Vm.vl3 v) &&& Vm.PHY_MASK) |||
          (v &&& 0xfff)) ∧
      (st.mem (e3 &&& Vm.PHY_MASK) (Vm.vl3 v) = 0 →
        (Vm.v2pPt l0 v none st).2 = Except.ok (v &&& 0xfff))) := by
  obtain ⟨mem, ⟨scst, scback⟩, fl3, tl, fr, fp⟩ := st
  simp only at hsc
  subst hsc
  have hs1 : Vm.setNclr 0 1 = some (0, 1) := rfl
  have hs2x : Vm.setNclr 1 1 = some (1, 3) := rfl
  have hU : Vm.U128M = 2 ^ 128 - 1 := rfl
  have hn0 : ¬((0 : Nat) = Vm.U128M) := by rw [hU]; norm_num
  have hn1x : ¬((1 : Nat) = Vm.U128M) := by rw [hU]; norm_num
  refine ⟨?_, ?_, ?_, ?_⟩
  · intro h0
    simp only at h0
    simp [Vm.v2pPt, Vm.walkToL3, h0]
  · intro e1 h1 h1n h1p hz
    simp only at h1 hz
    have h1c : ¬(e1 &&& Vm.PHY_MASK < 1073741824) := by omega
    simp [Vm.v2pPt, Vm.walkToL3, Vm.pmWrapNew, Vm.scrAlloc, Vm.tlbiV, Vm.pmWrapDrop,
      Vm.scrFree, hs1, h1, h1n, h1c, hn0, hz]
  · intro e1 e2 h1 h1n h1p h2 h2n h2p hz
    simp only at h1 h2 hz
    have h1c : ¬(e1 &&& Vm.PHY_MASK < 1073741824) := by omega
    have h2c : ¬(e2 &&& Vm.PHY_MASK < 1073741824) := by omega
    simp [Vm.v2pPt, Vm.walkToL3, Vm.pmWrapNew, Vm.scrAlloc, Vm.tlbiV, Vm.pmWrapDrop,
      Vm.scrFree, hs1, hs2x, h1, h2, h1n, h2n, h1c, h2c, hn0, hn1x, hz]
  · intro e1 e2 e3 h1 h1n h1p h2 h2n h2p h3 h3n h3p
    simp only at h1 h2 h3
    have hs3 : Vm.setNclr 3 1 = some (2, 7) := rfl
    have hn3 : ¬((3 : Nat) = Vm.U128M) := by rw [hU]; norm_num
    have h1c : ¬(e1 &&& Vm.PHY_MASK < 1073741824) := by omega
    have h2c : ¬(e2 &&& Vm.PHY_MASK < 1073741824) := by omega
    have h3c : ¬(e3 &&& Vm.PHY_MASK < 1073741824) := by omega
    have hmain :
        (Vm.v2pPt l0 v none
            ⟨mem, ⟨scst, 0⟩, fl3, tl, fr, fp⟩).2 =
          Except.ok ((mem (e3 &&& Vm.PHY_MASK) (Vm.vl3 v) &&& Vm.PHY_MASK) |||
            (v &&& 0xfff)) := by
      simp [Vm.v2pPt, Vm.walkToL3, Vm.pmWrapNew, Vm.scrAlloc, Vm.tlbiV, Vm.pmWrapDrop,
        Vm.scrFree, hs1, hs2x, hs3, h1, h2, h3, h1n, h2n, h3n, h1c, h2c, h3c, hn0,
        hn1x, hn3]
    refine ⟨hmain, ?_⟩
    intro hz
    simp only at hz
    rw [hmain, hz]
    simp

/-- Witness for C3 at the concrete chain `exSt`, `v = 0x123`: the leaf
`0x60000403` is present and the translation returns its physical address
plus the page offset. -/
theorem C3_translate_behaviour_witness :
    (Vm.v2pPt 0x50000000 0x123 none Vm.exSt).2 =
      Except.ok ((Vm.exSt.mem (0x50003003 &&& Vm.PHY_MASK) (Vm.vl3 0x123) &&&
        Vm.PHY_MASK) ||| (0x123 &&& 0xfff)) :=
  ((C3_translate_behaviour Vm.exSt 0x50000000 0x123 rfl).2.2.2
    0x50001003 0x50002003 0x50003003
    rfl (by norm_num) (by decide)
    rfl (by norm_num) (by decide)
    rfl (by norm_num) (by decide)).1

/-- C2 (counterexample): `map` with the overwrite flag set over a non-zero
L3 entry does *not* succeed: on the concrete state `exSt` (leaf present
for `v = 0x123`) it writes the new entry and invalidates the TLB but still
returns `Err(Exists(v))` (the source sets `overwritten = true` and returns
the error after the write). -/
theorem C2_map_overwrite_still_errors :
    (Vm.mapV2p4kInner 0x50000000 0x123 0x71000000 Sched.PR_PW_UR_UW1 true
        (fun _ s => s) Vm.exSt).2 = Except.error (Vm.VmError.exis 0x123) ∧
    (Vm.mapV2p4kInner 0x50000000 0x123 0x71000000 Sched.PR_PW_UR_UW1 true
        (fun _ s => s) Vm.exSt).1.mem 0x50003000 0 =
      (0x71000000 ||| Sched.PR_PW_UR_UW1 ||| 0x403) ∧
    (Vm.mapV2p4kInner 0x50000000 0x123 0x71000000 Sched.PR_PW_UR_UW1 true
        (fun _ s => s) Vm.exSt).1.tlbi.head? = some 0x123 :=
  ⟨rfl, rfl, rfl⟩

/-- C2 (amended): with the intermediate tables present (non-zero managed
entries) and an idle scratch window, the L3 step of `map_v2p_4k_inner`
behaves as follows: a non-zero leaf without `overwrite` fails `Exists(v)`
leaving the entry untouched; a zero leaf is written with
`p | perms | 0x403`, `v` is invalidated in the TLB, and the call returns
`Ok(v)`; a non-zero leaf *with* `overwrite` is also written and
invalidated, but the call still returns `Err(Exists(v))` rather than
succeeding (its callers treat that error as success). -/
theorem C2_map_l3_behaviour (st : Vm.VmSt) (l0 v p perms : Nat) (overw : Bool)
    (hsc : st.scratch.back = 0) :
    ∀ e1 e2 e3,
      st.mem l0 (Vm.vl0 v) = e1 → e1 ≠ 0 → 0x40000000 ≤ e1 &&& Vm.PHY_MASK →
      st.mem (e1 &&& Vm.PHY_MASK) (Vm.vl1 v) = e2 → e2 ≠ 0 →
        0x40000000 ≤ e2 &&& Vm.PHY_MASK →
      st.mem (e2 &&& Vm.PHY_MASK) (Vm.vl2 v) = e3 → e3 ≠ 0 →
        0x40000000 ≤ e3 &&& Vm.PHY_MASK →
      (st.mem (e3 &&& Vm.PHY_MASK) (Vm.vl3 v) ≠ 0 → overw = false →
        (Vm.mapV2p4kInner l0 v p perms overw (fun _ s => s) st).2 =
          Except.error (Vm.VmError.exis v) ∧
        (Vm.mapV2p4kInner l0 v p perms overw (fun _ s => s) st).1.mem
          (e3 &&& Vm.PHY_MASK) (Vm.vl3 v) = st.mem (e3 &&& Vm.PHY_MASK) (Vm.vl3 v)) ∧
      (st.mem (e3 &&& Vm.PHY_MASK) (Vm.vl3 v) = 0 →
        (Vm.mapV2p4kInner l0 v p perms overw (fun _ s => s) st).2 = Except.ok v ∧
        (Vm.mapV2p4kInner l0 v p perms overw (fun _ s => s) st).1.mem
          (e3 &&& Vm.PHY_MASK) (Vm.vl3 v) = p ||| perms ||| 0x403 ∧
        (Vm.mapV2p4kInner l0 v p perms overw (fun _ s => s) st).1.tlbi.head? = some v) ∧
      (st.mem (e3 &&& Vm.PHY_MASK) (Vm.vl3 v) ≠ 0 → overw = true →
        (Vm.mapV2p4kInner l0 v p perms overw (fun _ s => s) st).2 =
          Except.error (Vm.VmError.exis v) ∧
        (Vm.mapV2p4kInner l0 v p perms overw (fun _ s => s) st).1.mem
          (e3 &&& Vm.PHY_MASK) (Vm.vl3 v) = p ||| perms ||| 0x403 ∧
        (Vm.mapV2p4kInner l0 v p perms overw (fun _ s => s) st).1.tlbi.head? =
          some v) := by
  obtain ⟨mem, ⟨scst, scback⟩, fl3, tl, fr, fp⟩ := st
  simp only at hsc
  subst hsc
  intro e1 e2 e3 h1 h1n h1p h2 h2n h2p h3 h3n h3p
  simp only at h1 h2 h3
  have hs1 : Vm.setNclr 0 1 = some (0, 1) := rfl
  have hs2 : Vm.setNclr 1 1 = some (1, 3) := rfl
  have hs3 : Vm.setNclr 3 1 = some (2, 7) := rfl
  have hU : Vm.U128M = 2 ^ 128 - 1 := rfl
  have hn0 : ¬((0 : Nat) = Vm.U128M) := by rw [hU]; norm_num
  have hn1 : ¬((1 : Nat) = Vm.U128M) := by rw [hU]; norm_num
  have hn3 : ¬((3 : Nat) = Vm.U128M) := by rw [hU]; norm_num
  have h1c : ¬(e1 &&& Vm.PHY_MASK < 1073741824) := by omega
  have h2c : ¬(e2 &&& Vm.PHY_MASK < 1073741824) := by omega
  have h3c : ¬(e3 &&& Vm.PHY_MASK < 1073741824) := by omega
  refine ⟨?_, ?_, ?_⟩
  · intro hl ho
    subst ho
    simp only at hl
    constructor <;>
      simp [Vm.mapV2p4kInner, Vm.ptAllocIf02, Vm.pmWrapNew, Vm.scrAlloc, Vm.tlbiV,
        Vm.pmWrapDrop, Vm.scrFree, Vm.setMem, hs1, hs2, hs3, h1, h2, h3, h1n, h2n, h3n,
        h1c, h2c, h3c, hn0, hn1, hn3, hl]
  · intro hl
    simp only at hl
    refine ⟨?_, ?_, ?_⟩ <;>
      simp [Vm.mapV2p4kInner, Vm.ptAllocIf02, Vm.pmWrapNew, Vm.scrAlloc, Vm.tlbiV,
        Vm.pmWrapDrop, Vm.scrFree, Vm.setMem, hs1, hs2, hs3, h1, h2, h3, h1n, h2n, h3n,
        h1c, h2c, h3c, hn0, hn1, hn3, hl]
  · intro hl ho
    subst ho
    simp only at hl
    refine ⟨?_, ?_, ?_⟩ <;>
      simp [Vm.mapV2p4kInner, Vm.ptAllocIf02, Vm.pmWrapNew, Vm.scrAlloc, Vm.tlbiV,
        Vm.pmWrapDrop, Vm.scrFree, Vm.setMem, hs1, hs2, hs3, h1, h2, h3, h1n, h2n, h3n,
        h1c, h2c, h3c, hn0, hn1, hn3, hl]

/-- Witness for C2 at the concrete state `exStZ` (zero leaf), `v = 0x123`:
the map succeeds, writes the leaf and invalidates the TLB. -/
theorem C2_map_l3_behaviour_witness :
    (Vm.mapV2p4kInner 0x50000000 0x123 0x71000000 Sched.PR_PW_UR_UW1 false
        (fun _ s => s) Vm.exStZ).2 = Except.ok 0x123 ∧
    (Vm.mapV2p4kInner 0x50000000 0x123 0x71000000 Sched.PR_PW_UR_UW1 false
        (fun _ s => s) Vm.exStZ).1.mem (0x50003003 &&& Vm.PHY_MASK) (Vm.vl3 0x123) =
      0x71000000 ||| Sched.PR_PW_UR_UW1 ||| 0x403 ∧
    (Vm.mapV2p4kInner 0x50000000 0x123 0x71000000 Sched.PR_PW_UR_UW1 false
        (fun _ s => s) Vm.exStZ).1.tlbi.head? = some 0x123 :=
  ((C2_map_l3_behaviour Vm.exStZ 0x50000000 0x123 0x71000000 Sched.PR_PW_UR_UW1 false
      rfl 0x50001003 0x50002003 0x50003003
      rfl (by norm_num) (by decide)
      rfl (by norm_num) (by decide)
      rfl (by norm_num) (by decide)).2.1 rfl)

/-- Helper: `splitSlash` never returns an empty list of components. -/
theorem splitSlash_ne_nil (l : List Char) : P9.splitSlash l ≠ [] := by
  cases l with
  | nil => simp [P9.splitSlash]
  | cons c cs =>
      unfold P9.splitSlash
      split_ifs
      · simp
      · cases h : P9.splitSlash cs <;> simp

/-- Helper: a non-trivial repeated path is non-empty. -/
theorem repSeg_ne_nil (n : Nat) (h : 0 < n) : P9.repSeg n ≠ [] := by
  cases n with
  | zero => omega
  | succ m => simp [P9.repSeg]

/-- Helper: a non-trivial repeated path is not the literal "/". -/
theorem repSeg_ne_slash (n : Nat) (h : 0 < n) : P9.repSeg n ≠ ['/'] := by
  cases n with
  | zero => omega
  | succ m => simp [P9.repSeg]

/-- Helper: the repeated path with `n` segments splits into exactly `n`
non-empty components. -/
theorem pathToWnames_repSeg_len (n : Nat) :
    (P9.pathToWnames (P9.repSeg n)).length = n := by
  induction n with
  | zero => rfl
  | succ m ih =>
      have hsp : P9.splitSlash (P9.repSeg (m + 1)) =
          ['a'] :: P9.splitSlash (P9.repSeg m) := rfl
      unfold P9.pathToWnames at ih ⊢
      rw [hsp, List.filter_cons_of_pos (by decide), List.length_cons, ih]

/-- Helper: any path whose name vector exceeds `u16::MAX` components is
rejected up front, with no Walk queued. -/
theorem walkModel_too_long (rootQid : P9.QID) (newfid : Nat)
    (path : List Char) (reply : P9.WalkReply)
    (hne : path ≠ []) (hnr : path ≠ ['/'])
    (hlen : (P9.pathToWnames path).length > 65535) :
    P9.walkModel rootQid newfid path reply = ⟨none, some (Except.error ())⟩ := by
  unfold P9.walkModel
  rw [if_neg hne, if_neg hnr]
  dsimp only
  rw [if_pos hlen]

/-- C7 (counterexample): two non-empty paths break the claimed protocol.
The path "/" is special-cased by `ops::walk`: no Walk message is queued
and the cached root qid is returned with fid 0. And a path of 65536
components (more than `u16::MAX`) is rejected with `Err` before any Walk
is framed, so no Walk is issued for it either. -/
theorem C7_walk_root_no_message :
    ((['/'] : List Char) ≠ [] ∧
      (P9.walkModel ⟨1, 2, 3⟩ 7 ['/'] ⟨P9.RWALK, 1, [⟨9, 9, 9⟩]⟩).req = none ∧
      (P9.walkModel ⟨1, 2, 3⟩ 7 ['/'] ⟨P9.RWALK, 1, [⟨9, 9, 9⟩]⟩).res =
        some (Except.ok (0, ⟨1, 2, 3⟩))) ∧
    (P9.repSeg 65536 ≠ [] ∧ P9.repSeg 65536 ≠ ['/'] ∧
      (P9.pathToWnames (P9.repSeg 65536)).length = 65536 ∧
      (P9.walkModel ⟨1, 2, 3⟩ 7 (P9.repSeg 65536) ⟨P9.RWALK, 65536, []⟩).req = none ∧
      (P9.walkModel ⟨1, 2, 3⟩ 7 (P9.repSeg 65536) ⟨P9.RWALK, 65536, []⟩).res =
        some (Except.error ())) := by
  have hn : P9.repSeg 65536 ≠ [] := repSeg_ne_nil 65536 (by norm_num)
  have hs : P9.repSeg 65536 ≠ ['/'] := repSeg_ne_slash 65536 (by norm_num)
  have hl : (P9.pathToWnames (P9.repSeg 65536)).length = 65536 :=
    pathToWnames_repSeg_len 65536
  have hw := walkModel_too_long ⟨1, 2, 3⟩ 7 (P9.repSeg 65536)
    ⟨P9.RWALK, 65536, []⟩ hn hs (by omega)
  exact ⟨⟨by decide, rfl, rfl⟩, hn, hs, hl, by rw [hw], by rw [hw]⟩

/-- C7 (amended): for every non-empty path other than the literal "/"
whose name vector fits in a u16 (65535 components or fewer — longer paths
return `Err` with no Walk issued, as the counterexample shows),
`ops::walk` queues exactly one T-walk from fid 0 carrying the full name
vector (split on '/', empty components dropped); the call returns `Err`
whenever the reply's kind is not `RWALK`, and whenever the reply's qid
count differs from the number of requested components. The path "/" is
answered from the cached root qid with fid 0 and no message. -/
theorem C7_walk_request_and_qid_check (rootQid : P9.QID) (newfid : Nat)
    (path : List Char) (reply : P9.WalkReply)
    (hne : path ≠ []) (hnr : path ≠ ['/'])
    (hlen : (P9.pathToWnames path).length ≤ 65535) :
    (P9.walkModel rootQid newfid path reply).req =
      some ⟨0, newfid, P9.pathToWnames path⟩ ∧
    (reply.kind ≠ P9.RWALK →
      (P9.walkModel rootQid newfid path reply).res = some (Except.error ())) ∧
    (reply.nwqid ≠ (P9.pathToWnames path).length →
      (P9.walkModel rootQid newfid path reply).res = some (Except.error ())) := by
  unfold P9.walkModel
  rw [if_neg hne, if_neg hnr, if_neg (by omega)]
  dsimp only
  refine ⟨?_, ?_, ?_⟩
  · split_ifs <;> rfl
  · intro hk
    split_ifs <;> rfl
  · intro hq
    split_ifs <;> rfl

/-- Witness for C7: path "a/b" and a reply carrying one qid instead of
two. -/
theorem C7_walk_request_and_qid_check_witness :
    (P9.walkModel ⟨0, 0, 0⟩ 5 ['a', '/', 'b'] ⟨P9.RWALK, 1, [⟨9, 9, 9⟩]⟩).req =
      some ⟨0, 5, P9.pathToWnames ['a', '/', 'b']⟩ ∧
    (P9.walkModel ⟨0, 0, 0⟩ 5 ['a', '/', 'b'] ⟨P9.RWALK, 1, [⟨9, 9, 9⟩]⟩).res =
      some (Except.error ()) := by
  have t := C7_walk_request_and_qid_check ⟨0, 0, 0⟩ 5 ['a', '/', 'b']
    ⟨P9.RWALK, 1, [⟨9, 9, 9⟩]⟩ (by decide) (by decide) (by decide)
  exact ⟨t.1, t.2.2 (by decide)⟩
